import Mathlib

/-!
Verification of `src/utils/common_func.py` (kssgit/python_utils).

The Python module is embedded shallowly: pure functions become Lean
functions, file-system and network effects are passed in explicitly as
`Except`-valued environments (the open result of a path, the parsed rows
of a CSV file, the behaviour of the stdlib JSON parser, the outcome of an
HTTP request), and a raised Python exception is an `.error` value of the
`PyErr` type.  Machine floats of the byte-conversion helpers are modelled
over `ℚ` (the claims under test are exact multiplicative identities).
-/

namespace CommonFunc

/-- A raised Python exception, as observed by a caller of the module.
`exception msg` is `Exception(msg)` (the module raises a bare
`raise Exception` in the dispatch fall-through, giving an empty message);
the remaining constructors are the stdlib exception classes that can
escape the module's own `try/except` blocks. -/
inductive PyErr
  | exception (msg : String)
  | zeroDivisionError (msg : String)
  | attributeError (msg : String)
  | stopIteration
deriving DecidableEq, Repr

/- ----------------------------------------------------------------
§ Byte-size conversion (`MemoryUnit`, `convert_bytes`,
  `convert_to_bytes`, `convert_data_size`)
---------------------------------------------------------------- -/

/-- `class MemoryUnit(Enum)`: B=0, kB=1, MB=2, GB=3, TB=4, PB=5,
KiB=6, MiB=7, GiB=8, TiB=9, PiB=10. -/
inductive MemoryUnit
  | B | kB | MB | GB | TB | PB | KiB | MiB | GiB | TiB | PiB
deriving DecidableEq, Repr

/-- The `.value` of each `MemoryUnit` enum member. -/
def MemoryUnit.val : MemoryUnit → Nat
  | .B => 0 | .kB => 1 | .MB => 2 | .GB => 3 | .TB => 4 | .PB => 5
  | .KiB => 6 | .MiB => 7 | .GiB => 8 | .TiB => 9 | .PiB => 10

/-- `convert_bytes(size, target_unit, return_num=True)`, numeric branch:
`size /= 1000**target_unit.value` when `value < 6`, else
`size /= 1024**(target_unit.value - 5)`.  (The `return_num=False`
branch only formats the same number as a string.) -/
def convert_bytes (size : ℚ) (target_unit : MemoryUnit) : ℚ :=
  if target_unit.val < 6 then size / 1000 ^ target_unit.val
  else size / 1024 ^ (target_unit.val - 5)

/-- `convert_to_bytes(size, target_unit, return_num=True)`, numeric branch:
`size *= 1000**target_unit.value` when `value < 6`, else
`size *= 1024**(target_unit.value - 6)`.  Note the exponent `value - 6`
(not `value - 5` as in `convert_bytes`). -/
def convert_to_bytes (size : ℚ) (target_unit : MemoryUnit) : ℚ :=
  if target_unit.val < 6 then size * 1000 ^ target_unit.val
  else size * 1024 ^ (target_unit.val - 6)

/-- `convert_data_size(size, current_unit, convert_unit, return_num=True)`:
`convert_bytes(convert_to_bytes(size, current_unit, True), convert_unit,
return_num)`. -/
def convert_data_size (size : ℚ) (current_unit convert_unit : MemoryUnit) : ℚ :=
  convert_bytes (convert_to_bytes size current_unit) convert_unit

/- ----------------------------------------------------------------
§ JSON values and `read_json`
---------------------------------------------------------------- -/

/-- The structural values produced by Python's `json` module
(numbers restricted to integers; enough for every claim). -/
inductive JsonValue
  | null
  | bool (b : Bool)
  | num (n : Int)
  | str (s : String)
  | arr (elems : List JsonValue)
  | obj (fields : List (String × JsonValue))

/-- `read_json(file_path, chunk_size=0)`.

* `openRes` is the result of `open(file_path, "r")` followed by reading:
  `.error m` when the open raises `FileNotFoundError` (with `str(e) = m`),
  `.ok content` with the file's text otherwise.
* `load` is the behaviour of the stdlib parser `json.loads` on a string:
  `.error m` when it raises `json.JSONDecodeError` with `str(e) = m`.

The source re-raises `FileNotFoundError` as
`Exception(f"file not found error : \x7bstr(e)\x7d")` and
`json.JSONDecodeError` as
`Exception(f"json decode error : \x7bstr(e)\x7d")`.

When `chunk_size != 0` the source evaluates
`json.load("".join(iter(lambda: f.read(chunk_size), "")))`: the argument
is a `str`, and `json.load` immediately calls `.read()` on it, raising
`AttributeError` (a `str` has no attribute `read`), which neither
`except` clause catches. -/
def read_json (openRes : Except String String)
    (load : String → Except String JsonValue) (chunk_size : Nat) :
    Except PyErr JsonValue :=
  match openRes with
  | .error m => .error (.exception ("file not found error : " ++ m))
  | .ok content =>
    if chunk_size = 0 then
      match load content with
      | .ok v => .ok v
      | .error m => .error (.exception ("json decode error : " ++ m))
    else
      .error (.attributeError "str object has no attribute read")

/- ----------------------------------------------------------------
§ `read_file`
---------------------------------------------------------------- -/

/-- Python `str.splitlines()` restricted to `\n` terminators (the only
terminator this module ever writes): the final empty piece produced by a
trailing newline is not a line, and the empty string has no lines. -/
def splitlines (s : String) : List String :=
  if s = "" then []
  else if s.endsWith "\n" then (s.dropRight 1).splitOn "\n"
  else s.splitOn "\n"

/-- `read_file(file_path, read_line_by_line=False, chunk_size=0)`.
`openRes` is the result of `open(file_path, "r")` plus reading the whole
text.  The `chunk_size != 0` branch reads the same text in chunks and
joins them (`"".join(iter(lambda: f.read(chunk_size), ""))`), which
reassembles the identical string, so the parameter does not change the
result.  `FileNotFoundError` is re-raised as
`Exception(f"file not found error : \x7bstr(e)\x7d")`. -/
def read_file (openRes : Except String String) (read_line_by_line : Bool)
    (_chunk_size : Nat) : Except PyErr (String ⊕ List String) :=
  match openRes with
  | .error m => .error (.exception ("file not found error : " ++ m))
  | .ok content =>
    if read_line_by_line then .ok (.inr (splitlines content))
    else .ok (.inl content)

/- ----------------------------------------------------------------
§ `read_csv`
---------------------------------------------------------------- -/

/-- Python `%` on integers: raises `ZeroDivisionError` when the modulus
is zero. -/
def pyMod (a b : Nat) : Except PyErr Nat :=
  if b = 0 then .error (.zeroDivisionError "integer division or modulo by zero")
  else .ok (a % b)

/-- `data[-1].append(row)`: append `row` inside the last group of `data`.
The empty case is unreachable in `read_csv` (a fresh group is pushed
before the first append, because `0 % chunk_size = 0`). -/
def append_to_last : List (List α) → α → List (List α)
  | [], _ => []
  | [g], row => [g ++ [row]]
  | g :: h :: rest, row => g :: append_to_last (h :: rest) row

/-- The row loop of `read_csv`:
`for i, row in enumerate(reader): if i % chunk_size == 0: data.append([]);
data[-1].append(row)`, starting from index `i` and accumulator `data`.
`i % chunk_size` raises `ZeroDivisionError` when `chunk_size = 0`. -/
def chunk_loop (rows : List α) (chunk_size i : Nat)
    (data : List (List α)) : Except PyErr (List (List α)) :=
  match rows with
  | [] => .ok data
  | row :: rest =>
    match pyMod i chunk_size with
    | .error e => .error e
    | .ok r =>
      chunk_loop rest chunk_size (i + 1)
        (append_to_last (if r = 0 then data ++ [[]] else data) row)

/-- One element of the heterogeneous Python list returned by `read_csv`:
either the header row (a flat list of fields, inserted at index 0 when
`has_header` is true) or a row-group (a list of rows). -/
inductive CsvItem
  | row (r : List String)
  | group (g : List (List String))
deriving DecidableEq, Repr

/-- `read_csv(file_path, chunk_size=1000, has_header=False)`.
`openRes` is `open(file_path, ...)` plus `csv.reader`: `.error m` when the
open raises `FileNotFoundError` (re-raised as
`Exception(f"file not found error : \x7bstr(e)\x7d")`), `.ok rows` with the
parsed rows otherwise.  With `has_header`, `next(reader)` on an empty file
raises `StopIteration` (uncaught).  After the loop the header is put back
with `data.insert(0, header)`. -/
def read_csv (openRes : Except String (List (List String)))
    (chunk_size : Nat) (has_header : Bool) : Except PyErr (List CsvItem) :=
  match openRes with
  | .error m => .error (.exception ("file not found error : " ++ m))
  | .ok rows =>
    if has_header then
      match rows with
      | [] => .error .stopIteration
      | header :: rest =>
        match chunk_loop rest chunk_size 0 [] with
        | .error e => .error e
        | .ok data => .ok (CsvItem.row header :: data.map CsvItem.group)
    else
      match chunk_loop rows chunk_size 0 [] with
      | .error e => .error e
      | .ok data => .ok (data.map CsvItem.group)

/- ----------------------------------------------------------------
§ Write primitives
---------------------------------------------------------------- -/

/-- Mode normalization shared by all three write primitives:
`mode = "w" if mode not in ["a", "w"] else mode`. -/
def normalize_mode (mode : String) : String :=
  if mode = "a" ∨ mode = "w" then mode else "w"

/-- `write_file(file_path, data, mode="w")`.  `openFor` maps the
effective open mode to the open result for the path (`.error m` when the
open raises, e.g. `FileNotFoundError` on a missing parent directory).
Both `except` clauses return `False`; on success the stringified data is
written and `True` returned. -/
def write_file (openFor : String → Except String Unit) (_data : String)
    (mode : String) : Bool :=
  match openFor (normalize_mode mode) with
  | .ok _ => true
  | .error _ => false

/-- `write_json(file_path, data, mode="w")`: like `write_file`, with
`json.dump(data, f)` in place of `f.write`; every failure collapses to
`False`. -/
def write_json (openFor : String → Except String Unit) (_data : JsonValue)
    (mode : String) : Bool :=
  match openFor (normalize_mode mode) with
  | .ok _ => true
  | .error _ => false

/-- `write_csv(file_path, data, mode="w")`: like `write_file`, with
`csv.writer(f).writerows(data)`; every failure collapses to `False`. -/
def write_csv (openFor : String → Except String Unit)
    (_data : List (List String)) (mode : String) : Bool :=
  match openFor (normalize_mode mode) with
  | .ok _ => true
  | .error _ => false

/- ----------------------------------------------------------------
§ Extension detection and dispatch
---------------------------------------------------------------- -/

/-- `str.rfind` for a single character on a list of characters:
the greatest index holding `c`, or `none`. -/
def rfindChar (cs : List Char) (c : Char) : Option Nat :=
  (List.range cs.length).foldl
    (fun acc i => if cs[i]? = some c then some i else acc) none

/-- CPython `genericpath._splitext` with `sep = "/"`: the extension is
`p[dotIndex:]` when the last `.` lies after the last `/` and some
character of the basename strictly before that `.` is not itself a `.`
(leading dots of the basename do not start an extension); otherwise `""`. -/
def splitext_ext (p : String) : String :=
  let cs := p.data
  let sepIndex : Int := match rfindChar cs '/' with
    | some i => (i : Int)
    | none => -1
  let dotIndex : Int := match rfindChar cs '.' with
    | some i => (i : Int)
    | none => -1
  if sepIndex < dotIndex then
    let lo := (sepIndex + 1).toNat
    let hi := dotIndex.toNat
    if (List.range' lo (hi - lo)).any (fun j => cs[j]? != some '.') then
      String.mk (cs.drop hi)
    else ""
  else ""

/-- `get_extension(file_path)`: `os.path.splitext(file_path)[1]`. -/
def get_extension (file_path : String) : String :=
  splitext_ext file_path

/-- `class ExtensionType(Enum)`: TXT=".txt", JSON=".json", CSV=".csv",
LOG=".log", PY=".py". -/
inductive ExtensionType
  | TXT | JSON | CSV | LOG | PY
deriving DecidableEq, Repr

/-- The `.value` of each `ExtensionType` enum member. -/
def ExtensionType.value : ExtensionType → String
  | .TXT => ".txt" | .JSON => ".json" | .CSV => ".csv"
  | .LOG => ".log" | .PY => ".py"

/-- A Python value that can stand on either side of the dispatchers'
comparison: a `str` or an `ExtensionType` enum member. -/
inductive PyVal
  | str (s : String)
  | enumMember (e : ExtensionType)

/-- Python `==` on such values.  `str.__eq__` returns `NotImplemented`
for a non-`str` operand and plain `Enum` inherits identity-based
`object.__eq__`, so a `str` and an enum member are never equal —
regardless of the member's `.value`. -/
def pyEq : PyVal → PyVal → Bool
  | .str a, .str b => a == b
  | .enumMember a, .enumMember b => a == b
  | _, _ => false

/-- The read-side environment a call of `read_file_by_extension` may
touch, one field per primitive it can delegate to. -/
structure ReadEnv where
  textOpen : Except String String
  csvRows : Except String (List (List String))
  jsonText : Except String String
  jsonLoad : String → Except String JsonValue

/-- The dynamically-typed value returned by `read_file_by_extension`. -/
inductive ReadResult
  | text (s : String)
  | lines (ls : List String)
  | json (v : JsonValue)
  | csv (items : List CsvItem)

/-- `read_file_by_extension(file_path, read_line_by_line=False)`.
The source's `match extension:` is a chain of value patterns
`case ExtensionType.TXT:` … compared by Python `==` against the `str`
returned by `get_extension`, embedded here with `pyEq`; the fall-through
is a bare `raise Exception`.  The delegated calls use each primitive's
default `chunk_size` (`read_csv` with `chunk_size=1000`,
`has_header=False`; `read_json` with `chunk_size=0`). -/
def read_file_by_extension (file_path : String) (env : ReadEnv)
    (read_line_by_line : Bool) : Except PyErr ReadResult :=
  let extension := get_extension file_path
  if pyEq (.str extension) (.enumMember .TXT) then
    match read_file env.textOpen read_line_by_line 0 with
    | .error e => .error e
    | .ok (.inl s) => .ok (.text s)
    | .ok (.inr ls) => .ok (.lines ls)
  else if pyEq (.str extension) (.enumMember .CSV) then
    match read_csv env.csvRows 1000 false with
    | .error e => .error e
    | .ok items => .ok (.csv items)
  else if pyEq (.str extension) (.enumMember .JSON) then
    match read_json env.jsonText env.jsonLoad 0 with
    | .error e => .error e
    | .ok v => .ok (.json v)
  else if pyEq (.str extension) (.enumMember .LOG) then
    match read_file env.textOpen read_line_by_line 0 with
    | .error e => .error e
    | .ok (.inl s) => .ok (.text s)
    | .ok (.inr ls) => .ok (.lines ls)
  else if pyEq (.str extension) (.enumMember .PY) then
    match read_file env.textOpen read_line_by_line 0 with
    | .error e => .error e
    | .ok (.inl s) => .ok (.text s)
    | .ok (.inr ls) => .ok (.lines ls)
  else
    .error (.exception "")

/-- `write_file_by_extension(file_path, data, mode="w")`.  Same dispatch
shape as the read side; the single dynamically-typed `data` argument is
supplied here in each primitive's expected type (`sdata` for the text
branches, `cdata` for CSV, `jdata` for JSON).  The fall-through is a bare
`raise Exception`. -/
def write_file_by_extension (file_path : String)
    (openFor : String → Except String Unit) (sdata : String)
    (jdata : JsonValue) (cdata : List (List String)) (mode : String) :
    Except PyErr Bool :=
  let extension := get_extension file_path
  if pyEq (.str extension) (.enumMember .TXT) then
    .ok (write_file openFor sdata mode)
  else if pyEq (.str extension) (.enumMember .CSV) then
    .ok (write_csv openFor cdata mode)
  else if pyEq (.str extension) (.enumMember .JSON) then
    .ok (write_json openFor jdata mode)
  else if pyEq (.str extension) (.enumMember .LOG) then
    .ok (write_file openFor sdata mode)
  else if pyEq (.str extension) (.enumMember .PY) then
    .ok (write_file openFor sdata mode)
  else
    .error (.exception "")

/- ----------------------------------------------------------------
§ `common_request`
---------------------------------------------------------------- -/

/-- The value bound to `common_request`'s `method` parameter.  The
annotation `RequestMethods` is not enforced by Python, so the embedding
keeps a constructor for every non-member value. -/
inductive MethodValue
  | GET | POST | DELETE | PUT
  | other (repr : String)

/-- The exceptions `common_request`'s `except` clauses distinguish.
All four handlers do the same thing (`message = str(e)`), so only the
carried message matters. -/
inductive ReqExc
  | connectionError (msg : String)
  | connectionRefused (msg : String)
  | readTimeout (msg : String)
  | generic (msg : String)

/-- `str(e)` of a caught request exception. -/
def ReqExc.message : ReqExc → String
  | .connectionError m => m
  | .connectionRefused m => m
  | .readTimeout m => m
  | .generic m => m

/-- An HTTP response as `common_request` observes it: `status_code`, and
the outcome of `result.json()` (which can itself raise). -/
structure HttpResponse where
  status_code : Nat
  body : Except String JsonValue

/-- Python `d[key]` on a parsed JSON value: the field's value in a
mapping, otherwise `KeyError`/`TypeError` (caught below by
`except Exception`). -/
def jsonIndex (j : JsonValue) (key : String) : Except String JsonValue :=
  match j with
  | .obj fields =>
    match fields.find? (fun f => f.1 == key) with
    | some f => .ok f.2
    | none => .error ("KeyError: " ++ key)
  | _ => .error "value is not subscriptable"

/-- The `try` body of `common_request`: issue the request for a supported
method (`perform` is the behaviour of the `requests` library for this
call), or `raise Exception("Do not support request method")`; on a 200
response extract `result.json()["result"]` and flag success. -/
def common_request_try (method : MethodValue)
    (perform : MethodValue → Except ReqExc HttpResponse) :
    Except ReqExc (Option JsonValue × Bool) :=
  match (match method with
         | .other _ => .error (.generic "Do not support request method")
         | m => perform m : Except ReqExc HttpResponse) with
  | .error e => .error e
  | .ok result =>
    if result.status_code = 200 then
      match result.body with
      | .error m => .error (.generic m)
      | .ok j =>
        match jsonIndex j "result" with
        | .error m => .error (.generic m)
        | .ok v => .ok (some v, true)
    else .ok (none, false)

/-- `common_request(...)`: the `try` body wrapped in the four `except`
clauses, each of which sets `message = str(e)` and falls through to
`return (res, is_success, message)` with the initial `res = None`,
`is_success = False`.  The return type leaves room for a propagated
exception (`.error`), but every ordinary exception of the body — the
unsupported-method `Exception` included — is caught by the final
`except Exception` clause, so the function always returns a triple. -/
def common_request (method : MethodValue)
    (perform : MethodValue → Except ReqExc HttpResponse) :
    Except PyErr (Option JsonValue × Bool × String) :=
  match common_request_try method perform with
  | .ok (res, ok) => .ok (res, ok, "")
  | .error e => .ok (none, false, e.message)

/- ----------------------------------------------------------------
§ Chunking specification and lemmas
---------------------------------------------------------------- -/

/-- Structural chunking: the first `k` elements, then the chunks of the
rest.  (Junk value `[]` at `k = 0`; only used with `k ≠ 0`.) -/
def chunksOf (k : Nat) (l : List α) : List (List α) :=
  if hk : k = 0 then []
  else
    match l with
    | [] => []
    | x :: xs => (x :: xs).take k :: chunksOf k ((x :: xs).drop k)
termination_by l.length
decreasing_by
  simp only [List.length_drop, List.length_cons]
  omega

lemma chunksOf_nil (k : Nat) : chunksOf k ([] : List α) = [] := by
  rw [chunksOf]
  split <;> rfl

lemma chunksOf_cons (k : Nat) (hk : k ≠ 0) (x : α) (xs : List α) :
    chunksOf k (x :: xs) = (x :: xs).take k :: chunksOf k ((x :: xs).drop k) := by
  rw [chunksOf]
  simp [hk]

lemma append_to_last_snoc (d : List (List α)) (g : List α) (row : α) :
    append_to_last (d ++ [g]) row = d ++ [g ++ [row]] := by
  induction d with
  | nil => rfl
  | cons h t ih =>
    cases t with
    | nil => rfl
    | cons t0 t1 =>
      show h :: append_to_last ((t0 :: t1) ++ [g]) row =
        h :: ((t0 :: t1) ++ [g ++ [row]])
      rw [ih]

lemma succ_mod (i k : Nat) (hk : k ≠ 0) :
    (i + 1) % k = if i % k + 1 = k then 0 else i % k + 1 := by
  have hk0 : 0 < k := Nat.pos_of_ne_zero hk
  have h1 : i % k < k := Nat.mod_lt _ hk0
  have hadd : (i + 1) % k = (i % k + 1 % k) % k := by rw [Nat.add_mod]
  by_cases hc : i % k + 1 = k
  · rw [if_pos hc]
    by_cases hk1 : k = 1
    · subst hk1; simp [Nat.mod_one]
    · have h2 : (1 : Nat) % k = 1 := Nat.mod_eq_of_lt (by omega)
      rw [hadd, h2, hc, Nat.mod_self]
  · rw [if_neg hc]
    have h3 : i % k + 1 < k := by omega
    have h2 : (1 : Nat) % k = 1 := Nat.mod_eq_of_lt (by omega)
    rw [hadd, h2, Nat.mod_eq_of_lt h3]

lemma chunk_loop_cons (row : α) (rest : List α) (k i : Nat) (hk : k ≠ 0)
    (data : List (List α)) :
    chunk_loop (row :: rest) k i data =
      chunk_loop rest k (i + 1)
        (append_to_last (if i % k = 0 then data ++ [[]] else data) row) := by
  simp [chunk_loop, pyMod, hk]

/-- The row loop computes exactly the structural chunking: started at a
group boundary (`i % k = 0`) it appends `chunksOf k rows`; started inside
a group of `i % k` rows it first fills that group up to `k` rows. -/
lemma chunk_loop_spec (k : Nat) (hk : k ≠ 0) :
    ∀ (rows : List α) (i : Nat) (data : List (List α)),
      (i % k = 0 → chunk_loop rows k i data = .ok (data ++ chunksOf k rows)) ∧
      (∀ g : List α, i % k ≠ 0 →
        chunk_loop rows k i (data ++ [g]) =
          .ok (data ++ (g ++ rows.take (k - i % k)) ::
            chunksOf k (rows.drop (k - i % k)))) := by
  intro rows
  induction rows with
  | nil =>
    intro i data
    refine ⟨fun _ => ?_, fun g _ => ?_⟩
    · simp [chunk_loop, chunksOf_nil]
    · simp [chunk_loop, chunksOf_nil]
  | cons row rest ih =>
    intro i data
    have hk0 : 0 < k := Nat.pos_of_ne_zero hk
    refine ⟨fun h0 => ?_, fun g hm => ?_⟩
    · -- at a group boundary: push a fresh group, put `row` in it
      rw [chunk_loop_cons row rest k i hk data, if_pos h0,
        append_to_last_snoc data [] row, List.nil_append]
      have hsucc : (i + 1) % k = if (0 : Nat) + 1 = k then 0 else 0 + 1 := by
        rw [succ_mod i k hk, h0]
      by_cases hk1 : k = 1
      · have hz : (i + 1) % k = 0 := by rw [hsucc, if_pos (by omega)]
        rw [(ih (i + 1) (data ++ [[row]])).1 hz,
          chunksOf_cons k hk row rest, hk1]
        simp
      · have hnz : (i + 1) % k = 1 := by
          rw [hsucc, if_neg (by omega)]
        have := (ih (i + 1) data).2 [row] (by rw [hnz]; omega)
        rw [this, hnz, chunksOf_cons k hk row rest]
        have hkk : k = (k - 1) + 1 := by omega
        rw [show (row :: rest).take k = row :: rest.take (k - 1) by
            conv_lhs => rw [hkk, List.take_succ_cons],
          show (row :: rest).drop k = rest.drop (k - 1) by
            conv_lhs => rw [hkk, List.drop_succ_cons]]
        simp
    · -- inside a partially filled group of `i % k` rows
      rw [chunk_loop_cons row rest k i hk (data ++ [g]), if_neg hm,
        append_to_last_snoc data g row]
      have hmk : i % k < k := Nat.mod_lt _ hk0
      by_cases hc : i % k + 1 = k
      · have hz : (i + 1) % k = 0 := by rw [succ_mod i k hk, if_pos hc]
        rw [(ih (i + 1) (data ++ [g ++ [row]])).1 hz]
        have h1 : k - i % k = 1 := by omega
        rw [h1]
        simp
      · have hnz : (i + 1) % k = i % k + 1 := by
          rw [succ_mod i k hk, if_neg hc]
        have := (ih (i + 1) data).2 (g ++ [row]) (by rw [hnz]; omega)
        rw [this, hnz]
        have he : k - i % k = (k - (i % k + 1)) + 1 := by omega
        rw [show (row :: rest).take (k - i % k) =
              row :: rest.take (k - (i % k + 1)) by
            conv_lhs => rw [he, List.take_succ_cons],
          show (row :: rest).drop (k - i % k) =
              rest.drop (k - (i % k + 1)) by
            conv_lhs => rw [he, List.drop_succ_cons]]
        simp

/-- The loop as `read_csv` runs it (index 0, empty accumulator). -/
lemma chunk_loop_start (k : Nat) (hk : k ≠ 0) (rows : List α) :
    chunk_loop rows k 0 [] = .ok (chunksOf k rows) :=
  (chunk_loop_spec k hk rows 0 []).1 (Nat.zero_mod k) |>.trans (by simp)

lemma chunksOf_length_aux (k : Nat) (hk : k ≠ 0) :
    ∀ (n : Nat) (l : List α), l.length ≤ n →
      (chunksOf k l).length = (l.length + k - 1) / k := by
  have hk0 : 0 < k := Nat.pos_of_ne_zero hk
  intro n
  induction n with
  | zero =>
    intro l hl
    have : l = [] := List.eq_nil_of_length_eq_zero (Nat.le_zero.mp hl)
    subst this
    rw [chunksOf_nil]
    simp only [List.length_nil]
    rw [Nat.div_eq_of_lt (by omega)]
  | succ n ihn =>
    intro l hl
    cases l with
    | nil =>
      rw [chunksOf_nil]
      simp only [List.length_nil]
      rw [Nat.div_eq_of_lt (by omega)]
    | cons x xs =>
      rw [chunksOf_cons k hk x xs]
      have hdl : ((x :: xs).drop k).length ≤ n := by
        simp only [List.length_drop, List.length_cons] at *
        omega
      rw [List.length_cons, ihn _ hdl]
      simp only [List.length_drop, List.length_cons]
      by_cases hak : xs.length + 1 ≤ k
      · have e1 : xs.length + 1 - k + k - 1 = k - 1 := by omega
        have e3 : xs.length + 1 + k - 1 = (xs.length + 1 - 1) + k := by omega
        rw [e1, e3, Nat.add_div_right _ hk0,
          Nat.div_eq_of_lt (show k - 1 < k by omega),
          Nat.div_eq_of_lt (show xs.length + 1 - 1 < k by omega)]
      · have e1 : xs.length + 1 - k + k - 1 = xs.length + 1 - 1 := by omega
        have e3 : xs.length + 1 + k - 1 = (xs.length + 1 - 1) + k := by omega
        rw [e1, e3, Nat.add_div_right _ hk0]

lemma chunksOf_flatten_aux (k : Nat) (hk : k ≠ 0) :
    ∀ (n : Nat) (l : List α), l.length ≤ n → (chunksOf k l).flatten = l := by
  intro n
  induction n with
  | zero =>
    intro l hl
    have : l = [] := List.eq_nil_of_length_eq_zero (Nat.le_zero.mp hl)
    subst this
    rw [chunksOf_nil, List.flatten_nil]
  | succ n ihn =>
    intro l hl
    cases l with
    | nil => rw [chunksOf_nil, List.flatten_nil]
    | cons x xs =>
      rw [chunksOf_cons k hk x xs, List.flatten_cons]
      have hdl : ((x :: xs).drop k).length ≤ n := by
        simp only [List.length_drop, List.length_cons] at *
        omega
      rw [ihn _ hdl, List.take_append_drop]

lemma chunksOf_dropLast_aux (k : Nat) (hk : k ≠ 0) :
    ∀ (n : Nat) (l : List α), l.length ≤ n →
      ∀ g ∈ (chunksOf k l).dropLast, g.length = k := by
  intro n
  induction n with
  | zero =>
    intro l hl
    have : l = [] := List.eq_nil_of_length_eq_zero (Nat.le_zero.mp hl)
    subst this
    rw [chunksOf_nil]
    intro g hg
    simp at hg
  | succ n ihn =>
    intro l hl
    cases l with
    | nil =>
      rw [chunksOf_nil]
      intro g hg
      simp at hg
    | cons x xs =>
      rw [chunksOf_cons k hk x xs]
      rcases hd : (x :: xs).drop k with _ | ⟨y, ys⟩
      · rw [chunksOf_nil]
        intro g hg
        simp at hg
      · have hne : chunksOf k (y :: ys) ≠ [] := by
          rw [chunksOf_cons k hk y ys]
          exact List.cons_ne_nil _ _
        rw [List.dropLast_cons_of_ne_nil hne]
        intro g hg
        rcases List.mem_cons.mp hg with hgt | hgd
        · subst hgt
          have hlen : k ≤ xs.length + 1 := by
            have := congrArg List.length hd
            simp only [List.length_drop, List.length_cons] at this
            omega
          rw [List.length_take, List.length_cons]
          omega
        · have hdl : (y :: ys).length ≤ n := by
            have := congrArg List.length hd
            simp only [List.length_drop, List.length_cons] at this ⊢
            simp only [List.length_cons] at hl
            omega
          exact ihn (y :: ys) hdl g hgd

lemma chunksOf_getLast_aux (k : Nat) (hk : k ≠ 0) :
    ∀ (n : Nat) (l : List α), l.length ≤ n → l ≠ [] →
      ∃ g, (chunksOf k l).getLast? = some g ∧
        g.length = if l.length % k = 0 then k else l.length % k := by
  have hk0 : 0 < k := Nat.pos_of_ne_zero hk
  intro n
  induction n with
  | zero =>
    intro l hl hne
    exact absurd (List.eq_nil_of_length_eq_zero (Nat.le_zero.mp hl)) hne
  | succ n ihn =>
    intro l hl hne
    cases l with
    | nil => exact absurd rfl hne
    | cons x xs =>
      rw [chunksOf_cons k hk x xs]
      rcases hd : (x :: xs).drop k with _ | ⟨y, ys⟩
      · -- the single, final chunk: `xs.length + 1 ≤ k`
        have hlen : xs.length + 1 ≤ k := by
          have := congrArg List.length hd
          simp only [List.length_drop, List.length_cons, List.length_nil] at this
          omega
        rw [chunksOf_nil]
        refine ⟨(x :: xs).take k, rfl, ?_⟩
        rw [List.length_take, List.length_cons]
        by_cases hek : xs.length + 1 = k
        · rw [if_pos (by rw [hek, Nat.mod_self])]
          omega
        · rw [if_neg (by
            rw [Nat.mod_eq_of_lt (by omega)]
            omega)]
          rw [Nat.mod_eq_of_lt (by omega)]
          omega
      · -- at least one further chunk
        have hlen : xs.length + 1 - k = ys.length + 1 := by
          have := congrArg List.length hd
          simp only [List.length_drop, List.length_cons] at this
          omega
        have hdl : (y :: ys).length ≤ n := by
          simp only [List.length_cons] at hl ⊢
          omega
        obtain ⟨g, hg, hglen⟩ := ihn (y :: ys) hdl (List.cons_ne_nil _ _)
        refine ⟨g, ?_, ?_⟩
        · have hcne : chunksOf k (y :: ys) ≠ [] := by
            rw [chunksOf_cons k hk y ys]
            exact List.cons_ne_nil _ _
          rcases hc : chunksOf k (y :: ys) with _ | ⟨c, cs⟩
          · exact absurd hc hcne
          · rw [hc] at hg
            rw [List.getLast?_cons_cons]
            exact hg
        · have hmod : (x :: xs).length % k = (y :: ys).length % k := by
            simp only [List.length_cons]
            conv_lhs => rw [show xs.length + 1 = (ys.length + 1) + k by omega]
            rw [Nat.add_mod_right]
          rw [hmod]
          exact hglen

lemma chunksOf_length (k : Nat) (hk : k ≠ 0) (l : List α) :
    (chunksOf k l).length = (l.length + k - 1) / k :=
  chunksOf_length_aux k hk l.length l le_rfl

lemma chunksOf_flatten (k : Nat) (hk : k ≠ 0) (l : List α) :
    (chunksOf k l).flatten = l :=
  chunksOf_flatten_aux k hk l.length l le_rfl

lemma chunksOf_dropLast (k : Nat) (hk : k ≠ 0) (l : List α) :
    ∀ g ∈ (chunksOf k l).dropLast, g.length = k :=
  chunksOf_dropLast_aux k hk l.length l le_rfl

lemma chunksOf_getLast (k : Nat) (hk : k ≠ 0) (l : List α) (hne : l ≠ []) :
    ∃ g, (chunksOf k l).getLast? = some g ∧
      g.length = if l.length % k = 0 then k else l.length % k :=
  chunksOf_getLast_aux k hk l.length l le_rfl hne

/- ----------------------------------------------------------------
§ Claim theorems
---------------------------------------------------------------- -/

/-- Claim C1 (code-bug evidence).  The claim says the dispatchers map a
supported extension to the corresponding primitive and raise only on an
unsupported one.  On the code this fails: `get_extension "data.txt"` is
`".txt"`, which is exactly `ExtensionType.TXT.value`, yet both
`read_file_by_extension` and `write_file_by_extension` raise the bare
fall-through `Exception` on every path — their `match extension:`
compares the extension `str` against the `ExtensionType` enum members
themselves (`case ExtensionType.TXT:` is a value pattern), and a `str`
never equals a plain `Enum` member, so no branch can ever fire. -/
theorem dispatch_always_raises :
    get_extension "data.txt" = ".txt" ∧
    ExtensionType.TXT.value = ".txt" ∧
    (∀ (file_path : String) (env : ReadEnv) (rlbl : Bool),
      read_file_by_extension file_path env rlbl = .error (.exception "")) ∧
    (∀ (file_path : String) (openFor : String → Except String Unit)
      (sdata : String) (jdata : JsonValue) (cdata : List (List String))
      (mode : String),
      write_file_by_extension file_path openFor sdata jdata cdata mode =
        .error (.exception "")) :=
  ⟨by decide, rfl, fun _ _ _ => rfl, fun _ _ _ _ _ _ => rfl⟩

/-- Claim C2 (code-bug evidence).  The claimed write-then-read round trip
cannot even begin: on the supported path `"a.txt"`, with an environment
in which every file operation would succeed, `write_file_by_extension`
raises the dispatch fall-through `Exception` instead of writing, and
`read_file_by_extension` raises it instead of reading, so no supported
extension round-trips through the by-extension API. -/
theorem roundtrip_by_extension_raises :
    write_file_by_extension "a.txt" (fun _ => .ok ()) "hello" (.obj [])
      [] "w" = .error (.exception "") ∧
    read_file_by_extension "a.txt"
      ⟨.ok "hello", .ok [], .ok "", fun _ => .error "Expecting value"⟩ false =
      .error (.exception "") :=
  ⟨rfl, rfl⟩

/-- Claim C3 (code-bug evidence).  The claim (and the functions' own
docstrings) demand binary units to scale by 1024 per step in both
directions, e.g. `convert_to_bytes(x, KiB) = x·1024`, with
`convert_bytes ∘ convert_to_bytes` the identity on every unit.  The code
multiplies binary units by `1024^(value-6)` but divides by
`1024^(value-5)`: `convert_to_bytes 1 KiB` is `1` (not `1024`),
`convert_to_bytes 1 MiB` is `1024` (not `1024²`), and the binary
round trip returns `x / 1024`.  The decimal units round-trip as claimed
(last conjunct). -/
theorem convert_binary_units_off_by_one :
    convert_to_bytes 1 .KiB = 1 ∧
    convert_to_bytes 1 .MiB = 1024 ∧
    convert_bytes (convert_to_bytes 1 .KiB) .KiB = 1 / 1024 ∧
    convert_data_size 1 .KiB .KiB = 1 / 1024 ∧
    convert_bytes (convert_to_bytes 1 .kB) .kB = 1 := by
  norm_num [convert_to_bytes, convert_bytes, convert_data_size, MemoryUnit.val]

/-- Claim C4 (code-bug evidence).  The three write primitives do collapse
every open failure (a missing parent directory raises
`FileNotFoundError` at `open`) to `False` — first three conjuncts.  But
the claim also covers `write_file_by_extension`, and that function never
returns `False` on such a path: it raises the dispatch fall-through
`Exception` before reaching any primitive (last conjunct, for the
path `"missing/a.txt"` with a supported `.txt` extension). -/
theorem write_failure_collapses_but_dispatch_raises :
    (∀ (m : String) (d : String) (mode : String),
      write_file (fun _ => .error m) d mode = false) ∧
    (∀ (m : String) (v : JsonValue) (mode : String),
      write_json (fun _ => .error m) v mode = false) ∧
    (∀ (m : String) (r : List (List String)) (mode : String),
      write_csv (fun _ => .error m) r mode = false) ∧
    (∀ (openFor : String → Except String Unit) (d : String) (v : JsonValue)
      (r : List (List String)) (mode : String),
      write_file_by_extension "missing/a.txt" openFor d v r mode =
        .error (.exception "")) :=
  ⟨fun _ _ _ => rfl, fun _ _ _ => rfl, fun _ _ _ => rfl,
    fun _ _ _ _ _ => rfl⟩

/-- Claim C5.  For `n` data rows and `chunk_size = k ≥ 1`, `read_csv`
returns exactly the row-groups `chunksOf k rows` (with the header row
prepended as one extra element when `has_header`), and these groups
number `⌈n / k⌉ = (n + k - 1) / k`, concatenate back to the rows in
order, are all of size `k` except possibly the last, and the last has
`n mod k` rows (`k` when `n mod k = 0` and `n > 0`) — equivalently, a
new group starts exactly at the 0-based post-header indices that are
multiples of `k`. -/
theorem read_csv_chunk_structure (rows : List (List String)) (k : Nat)
    (hk : 0 < k) :
    read_csv (.ok rows) k false = .ok ((chunksOf k rows).map CsvItem.group) ∧
    (∀ header, read_csv (.ok (header :: rows)) k true =
      .ok (CsvItem.row header :: (chunksOf k rows).map CsvItem.group)) ∧
    (chunksOf k rows).length = (rows.length + k - 1) / k ∧
    (chunksOf k rows).flatten = rows ∧
    (∀ g ∈ (chunksOf k rows).dropLast, g.length = k) ∧
    (rows ≠ [] → ∃ g, (chunksOf k rows).getLast? = some g ∧
      g.length = if rows.length % k = 0 then k else rows.length % k) := by
  have hk' : k ≠ 0 := by omega
  refine ⟨?_, ?_, chunksOf_length k hk' rows, chunksOf_flatten k hk' rows,
    chunksOf_dropLast k hk' rows, fun hne => chunksOf_getLast k hk' rows hne⟩
  · simp [read_csv, chunk_loop_start k hk' rows]
  · intro header
    simp [read_csv, chunk_loop_start k hk' rows]

/-- Witness for C5 at `rows = [["a"], ["b"], ["c"]]`, `k = 2`. -/
theorem read_csv_chunk_structure_w :
    0 < 2 ∧
    read_csv (.ok [["a"], ["b"], ["c"]]) 2 false =
      .ok ((chunksOf 2 [["a"], ["b"], ["c"]]).map CsvItem.group) :=
  ⟨by decide, (read_csv_chunk_structure [["a"], ["b"], ["c"]] 2 (by decide)).1⟩

/-- Claim C6.  `read_json` surfaces a missing file as
`Exception("file not found error : " ++ msg)` and a malformed document
as `Exception("json decode error : " ++ msg)`; the two reports are
distinguishable (third conjunct: no message of the one kind equals a
message of the other) and each carries the underlying message; a
well-formed document such as `\x7b"a": [1,2,3]\x7d` is returned as the
corresponding mapping (last conjunct, for the default
`chunk_size = 0`). -/
theorem read_json_error_kinds :
    (∀ (m : String) (load : String → Except String JsonValue) (cs : Nat),
      read_json (.error m) load cs =
        .error (.exception ("file not found error : " ++ m))) ∧
    (∀ (content m : String) (load : String → Except String JsonValue),
      load content = .error m →
      read_json (.ok content) load 0 =
        .error (.exception ("json decode error : " ++ m))) ∧
    (∀ m m' : String,
      ("file not found error : " ++ m) ≠ ("json decode error : " ++ m')) ∧
    (∀ (content : String) (load : String → Except String JsonValue),
      load content = .ok (.obj [("a", .arr [.num 1, .num 2, .num 3])]) →
      read_json (.ok content) load 0 =
        .ok (.obj [("a", JsonValue.arr [.num 1, .num 2, .num 3])])) := by
  refine ⟨fun m load cs => rfl, fun content m load h => ?_, ?_,
    fun content load h => ?_⟩
  · simp [read_json, h]
  · intro m m' h
    have hd := congrArg String.data h
    rw [String.data_append, String.data_append] at hd
    have e1 : "file not found error : ".data =
      'f' :: "ile not found error : ".data := rfl
    have e2 : "json decode error : ".data =
      'j' :: "son decode error : ".data := rfl
    rw [e1, e2] at hd
    simp only [List.cons_append] at hd
    injection hd with h1 _
    exact absurd h1 (by decide)
  · simp [read_json, h]

/-- The stdlib JSON parser's behaviour on the two concrete documents of
the C6 witness. -/
def jsonLoad0 : String → Except String JsonValue :=
  fun s =>
    if s = "\x7b\"a\": [1,2,3]\x7d" then
      .ok (.obj [("a", .arr [.num 1, .num 2, .num 3])])
    else .error "Expecting value: line 1 column 1 (char 0)"

/-- Witness for C6 on concrete documents: a parsed mapping, a parse
error, and a not-found error. -/
theorem read_json_error_kinds_w :
    read_json (.ok "\x7b\"a\": [1,2,3]\x7d") jsonLoad0 0 =
      .ok (.obj [("a", JsonValue.arr [.num 1, .num 2, .num 3])]) ∧
    read_json (.ok "\x7ba:\x7d") jsonLoad0 0 =
      .error (.exception ("json decode error : " ++
        "Expecting value: line 1 column 1 (char 0)")) ∧
    read_json (.error "No such file or directory") jsonLoad0 0 =
      .error (.exception ("file not found error : " ++
        "No such file or directory")) :=
  ⟨read_json_error_kinds.2.2.2 _ jsonLoad0 rfl,
    read_json_error_kinds.2.1 _ _ jsonLoad0 rfl,
    read_json_error_kinds.1 "No such file or directory" jsonLoad0 0⟩

/-- Claim C7.  A CSV file whose single row is the header yields, for
every `chunk_size`, the outer sequence `[header]` of length exactly 1;
and a missing file makes `read_csv` raise the reported not-found
`Exception` for every `chunk_size` and header flag — never an empty
result. -/
theorem read_csv_header_only_and_missing :
    (∀ (k : Nat) (header : List String),
      read_csv (.ok [header]) k true = .ok [CsvItem.row header]) ∧
    (∀ (m : String) (k : Nat) (hh : Bool),
      read_csv (.error m) k hh =
        .error (.exception ("file not found error : " ++ m))) :=
  ⟨fun _ _ => rfl, fun _ _ _ => rfl⟩

/-- The behaviour of the `requests` library used by the C8
counterexample: every issued request succeeds with a 200 response whose
body carries a `result` field. -/
def perform0 : MethodValue → Except ReqExc HttpResponse :=
  fun _ => .ok ⟨200, .ok (.obj [("result", .str "ok")])⟩

/-- Claim C8 counterexample.  The claim says an unsupported method is a
fatal local error that propagates to the caller rather than being
converted into an ordinary `(None, False, message)` failure result.  At
the concrete method value `"PATCH"` (with a request environment that
would answer any issued request successfully) `common_request` returns
normally with exactly that ordinary failure triple: the locally raised
`Exception("Do not support request method")` is caught by the
function's own final `except Exception` clause. -/
theorem common_request_unsupported_counterexample :
    common_request (.other "PATCH") perform0 =
      .ok (none, false, "Do not support request method") := rfl

/-- Claim C8 as amended: for every method value outside
`\x7bGET, POST, PUT, DELETE\x7d`, `common_request` catches its own
unsupported-method `Exception` in the generic `except Exception` handler
and returns the ordinary failure triple
`(None, False, "Do not support request method")`; no request is issued
and nothing propagates. -/
theorem common_request_unsupported_returns_triple :
    ∀ (s : String) (perform : MethodValue → Except ReqExc HttpResponse),
      common_request (.other s) perform =
        .ok (none, false, "Do not support request method") :=
  fun _ _ => rfl

/-- Claim C9.  With at least one data row (two rows when the first is
consumed as header), `read_csv` with `chunk_size = 0` evaluates
`i % chunk_size` at the first data row and raises an unhandled
`ZeroDivisionError` — not the reported file error. -/
theorem read_csv_chunk_size_zero_div (rows : List (List String)) (hh : Bool)
    (h : if hh then 1 < rows.length else rows ≠ []) :
    read_csv (.ok rows) 0 hh =
      .error (.zeroDivisionError "integer division or modulo by zero") := by
  cases hh with
  | false =>
    simp only [if_neg Bool.false_ne_true] at h
    rcases rows with _ | ⟨r, rest⟩
    · exact absurd rfl h
    · simp [read_csv, chunk_loop, pyMod]
  | true =>
    simp only [if_pos rfl] at h
    rcases rows with _ | ⟨hdr, rest⟩
    · simp at h
    · rcases rest with _ | ⟨r, rest'⟩
      · simp at h
      · simp [read_csv, chunk_loop, pyMod]

/-- Witness for C9 at one data row, no header. -/
theorem read_csv_chunk_size_zero_div_w :
    (if false then 1 < ([["x"]] : List (List String)).length
      else ([["x"]] : List (List String)) ≠ []) ∧
    read_csv (.ok [["x"]]) 0 false =
      .error (.zeroDivisionError "integer division or modulo by zero") :=
  ⟨by decide, read_csv_chunk_size_zero_div [["x"]] false (by decide)⟩

/-- Claim C10.  For every `chunk_size > 0` the chunked branch of
`read_json` hands the accumulated *string* to `json.load`, which
immediately raises `AttributeError` (a `str` has no `read` method), and
neither `except` clause catches it; on a missing file the not-found
report is raised before the branch is reached.  Hence `read_json` with a
nonzero `chunk_size` never returns a parsed value. -/
theorem read_json_chunked_never_returns (cs : Nat) (hcs : 0 < cs) :
    (∀ (content : String) (load : String → Except String JsonValue),
      read_json (.ok content) load cs =
        .error (.attributeError "str object has no attribute read")) ∧
    (∀ (m : String) (load : String → Except String JsonValue),
      read_json (.error m) load cs =
        .error (.exception ("file not found error : " ++ m))) ∧
    (∀ (openRes : Except String String)
      (load : String → Except String JsonValue) (v : JsonValue),
      read_json openRes load cs ≠ .ok v) := by
  have hcs' : cs ≠ 0 := by omega
  refine ⟨fun content load => by simp [read_json, hcs'],
    fun m load => rfl, ?_⟩
  intro openRes load v h
  cases openRes with
  | error m => simp [read_json] at h
  | ok content => simp [read_json, hcs'] at h

/-- Witness for C10 at `chunk_size = 1`. -/
theorem read_json_chunked_never_returns_w :
    0 < 1 ∧
    read_json (.ok "\x7b\x7d") jsonLoad0 1 =
      .error (.attributeError "str object has no attribute read") :=
  ⟨by decide, (read_json_chunked_never_returns 1 (by decide)).1 _ jsonLoad0⟩

end CommonFunc
